import Mathlib

/-!
Shallow embedding of the asynchronous task-distribution core of the
repository (app/tasks: models.py, store.py, producer.py, consumer.py,
registry.py, workers/base.py), together with a model of the Redis
primitives the code calls (hashes with sliding TTL, streams with
consumer-group delivery), following the documented semantics of those
primitives.  Machine-level details that the core never observes
(payload values nested deeper than one level, clock skew) are modelled
by flat string-valued JSON objects and explicit clock parameters.
-/

namespace TaskCore

/-- Status enumeration from app/tasks/models.py (class TaskStatus). -/
inductive TaskStatus where
  | pending
  | running
  | completed
  | failed
  deriving DecidableEq

/-- The string value of a TaskStatus member (str-valued enum). -/
def TaskStatus.value : TaskStatus → String
  | .pending => "pending"
  | .running => "running"
  | .completed => "completed"
  | .failed => "failed"

/-- The TaskStatus(s) enum constructor call: returns the member whose
value is s, and fails (models a raised ValueError) otherwise. -/
def TaskStatus.ofValue (s : String) : Option TaskStatus :=
  if s = "pending" then some .pending
  else if s = "running" then some .running
  else if s = "completed" then some .completed
  else if s = "failed" then some .failed
  else none

/-- Task-type enumeration from app/tasks/models.py (class TaskType). -/
inductive TaskType where
  | hex
  | job
  deriving DecidableEq

/-- The string value of a TaskType member (str-valued enum). -/
def TaskType.value : TaskType → String
  | .hex => "hex"
  | .job => "job"

/-- The TaskType(s) enum constructor call: returns the member whose
value is s, and fails (models a raised ValueError) otherwise. -/
def TaskType.ofValue (s : String) : Option TaskType :=
  if s = "hex" then some .hex
  else if s = "job" then some .job
  else none

/-- A datetime value, modelled by its ISO-8601 rendering, which is never
the empty string.  datetime.isoformat is then the underlying string and
datetime.fromisoformat of a rendering is the identity. -/
abbrev Datetime := { s : String // s ≠ "" }

/-- datetime.isoformat. -/
def Datetime.isoformat (d : Datetime) : String := d.val

/-- Payload / result dictionaries (Dict[str, Any]), modelled as flat
string-valued JSON objects with insertion order preserved, which is all
the structure the core ever inspects (it only serializes, deserializes
and tests emptiness). -/
abbrev JsonDict := List (String × String)

/-! ### Model of json.dumps / json.loads on flat string-valued objects

json.dumps(d, ensure_ascii=False) is modelled by a canonical printer
(default separators, backslash escaping of the quote and backslash
characters); json.loads is modelled by a parser that is exact on the
printer image, which is the only place the core applies it. -/

/-- Escaping of one character inside a JSON string literal. -/
def escChar (c : Char) : List Char :=
  if c = '\"' ∨ c = '\\' then ['\\', c] else [c]

/-- Escaping of a character sequence inside a JSON string literal. -/
def escape : List Char → List Char
  | [] => []
  | c :: cs => escChar c ++ escape cs

/-- Parser of the body of a JSON string literal (after the opening
quote): returns the unescaped content and the input after the closing
quote. -/
def parseStr : List Char → Option (List Char × List Char)
  | [] => none
  | c :: cs =>
    if c = '\"' then some ([], cs)
    else if c = '\\' then
      match cs with
      | [] => none
      | d :: ds =>
        match parseStr ds with
        | none => none
        | some (s, r) => some (d :: s, r)
    else
      match parseStr cs with
      | none => none
      | some (s, r) => some (c :: s, r)

/-- Printed form of one key/value pair, with the default ": " separator
of json.dumps. -/
def dumpPair (p : String × String) : List Char :=
  '\"' :: (escape p.1.data ++ '\"' :: ':' :: ' ' :: '\"' :: (escape p.2.data ++ ['\"']))

/-- Parser of one key/value pair. -/
def parsePair (input : List Char) : Option ((String × String) × List Char) :=
  if input.head? = some '\"' then
    match parseStr input.tail with
    | none => none
    | some (k, r1) =>
      if r1.take 3 = [':', ' ', '\"'] then
        match parseStr (r1.drop 3) with
        | none => none
        | some (v, r3) => some ((String.mk k, String.mk v), r3)
      else none
  else none

/-- Printed form of the members of an object, joined by the default
", " separator of json.dumps. -/
def itemsChars : JsonDict → List Char
  | [] => []
  | [p] => dumpPair p
  | p :: q :: ps => dumpPair p ++ ',' :: ' ' :: itemsChars (q :: ps)

/-- Parser of the members of an object up to and including the closing
brace, with fuel. -/
def parseItems : Nat → List Char → Option (JsonDict × List Char)
  | 0, _ => none
  | fuel + 1, input =>
    if input.head? = some '\x7d' then some ([], input.tail)
    else
      match parsePair input with
      | none => none
      | some (p, r) =>
        if r.head? = some '\x7d' then some ([p], r.tail)
        else if r.take 2 = [',', ' '] then
          match parseItems fuel (r.drop 2) with
          | none => none
          | some (q, r3) => some (p :: q, r3)
        else none

/-- Model of json.dumps(d, ensure_ascii=False) for a flat string-valued
object d. -/
def dumps (d : JsonDict) : String :=
  String.mk ('\x7b' :: (itemsChars d ++ ['\x7d']))

/-- Model of json.loads restricted to canonical object renderings: it
is exact on the image of dumps and returns none (a raised error)
elsewhere. -/
def loads (s : String) : Option JsonDict :=
  match s.data with
  | '\x7b' :: cs =>
    match parseItems cs.length cs with
    | none => none
    | some (d, r) => if r = [] then some d else none
  | _ => none


/-! ### Task records and their flat serialization (app/tasks/models.py,
TaskStore._serialize / TaskStore._deserialize in app/tasks/store.py) -/

/-- TaskRecord from app/tasks/models.py. -/
structure TaskRecord where
  task_id : String
  task_type : TaskType
  status : TaskStatus
  progress : Option String := none
  payload : JsonDict := []
  result : Option JsonDict := none
  error : Option String := none
  created_at : Datetime
  started_at : Option Datetime := none
  completed_at : Option Datetime := none
  deriving DecidableEq

/-- The Redis hash stored under a task key: the ten field names written
by TaskStore, each present (some) or absent (none).  The core only ever
writes these ten names, so the hash is modelled by this record. -/
structure TaskHash where
  task_id : Option String := none
  task_type : Option String := none
  status : Option String := none
  progress : Option String := none
  payload : Option String := none
  result : Option String := none
  error : Option String := none
  created_at : Option String := none
  started_at : Option String := none
  completed_at : Option String := none
  deriving DecidableEq

/-- The hash of a key that does not exist (hgetall returns an empty
dict). -/
def emptyHash : TaskHash := {}

/-- Python `data.get(k) or None`: a missing or empty-string field reads
back as None. -/
def orNone (o : Option String) : Option String :=
  match o with
  | none => none
  | some s => if s = "" then none else some s

/-- TaskStore._serialize: every field rendered to a string, optional
fields rendered to the empty string when falsy. -/
def serialize (r : TaskRecord) : TaskHash where
  task_id := some r.task_id
  task_type := some r.task_type.value
  status := some r.status.value
  progress := some (r.progress.getD "")
  payload := some (dumps r.payload)
  result := some (match r.result with
    | some d => if d.isEmpty then "" else dumps d
    | none => "")
  error := some (r.error.getD "")
  created_at := some r.created_at.isoformat
  started_at := some (match r.started_at with
    | some d => d.isoformat
    | none => "")
  completed_at := some (match r.completed_at with
    | some d => d.isoformat
    | none => "")

/-- TaskStore._deserialize: required fields raise KeyError when absent
(modelled by Except.error), enum values raise ValueError when unknown,
optional string fields read back through `or None`, JSON fields are
parsed when truthy. -/
def deserialize (h : TaskHash) : Except String TaskRecord :=
  match h.task_id with
  | none => .error "KeyError: task_id"
  | some tid =>
  match h.task_type with
  | none => .error "KeyError: task_type"
  | some tts =>
  match TaskType.ofValue tts with
  | none => .error "ValueError: task_type"
  | some tty =>
  match h.status with
  | none => .error "KeyError: status"
  | some sts =>
  match TaskStatus.ofValue sts with
  | none => .error "ValueError: status"
  | some sty =>
  match (match h.payload with
    | none => Except.ok ([] : JsonDict)
    | some s =>
      if s = "" then Except.ok ([] : JsonDict)
      else match loads s with
        | some d => Except.ok d
        | none => Except.error "JSONDecodeError: payload") with
  | .error e => .error e
  | .ok payload =>
  match (match h.result with
    | none => Except.ok (none : Option JsonDict)
    | some s =>
      if s = "" then Except.ok (none : Option JsonDict)
      else match loads s with
        | some d => Except.ok (some d)
        | none => Except.error "JSONDecodeError: result") with
  | .error e => .error e
  | .ok result =>
  match h.created_at with
  | none => .error "KeyError: created_at"
  | some cas =>
  if hc : cas = "" then .error "ValueError: created_at"
  else
  match h.started_at with
  | none =>
    match h.completed_at with
    | none =>
      .ok { task_id := tid, task_type := tty, status := sty,
            progress := orNone h.progress, payload := payload,
            result := result, error := orNone h.error,
            created_at := ⟨cas, hc⟩, started_at := none,
            completed_at := none }
    | some cs =>
      .ok { task_id := tid, task_type := tty, status := sty,
            progress := orNone h.progress, payload := payload,
            result := result, error := orNone h.error,
            created_at := ⟨cas, hc⟩, started_at := none,
            completed_at := if hs : cs = "" then none else some ⟨cs, hs⟩ }
  | some ss =>
    match h.completed_at with
    | none =>
      .ok { task_id := tid, task_type := tty, status := sty,
            progress := orNone h.progress, payload := payload,
            result := result, error := orNone h.error,
            created_at := ⟨cas, hc⟩,
            started_at := if hs : ss = "" then none else some ⟨ss, hs⟩,
            completed_at := none }
    | some cs =>
      .ok { task_id := tid, task_type := tty, status := sty,
            progress := orNone h.progress, payload := payload,
            result := result, error := orNone h.error,
            created_at := ⟨cas, hc⟩,
            started_at := if hs : ss = "" then none else some ⟨ss, hs⟩,
            completed_at := if hs : cs = "" then none else some ⟨cs, hs⟩ }

/-- Normalization performed by a serialize/deserialize round trip:
falsy optional fields (empty-string progress or error, empty result
dict) collapse to absent. -/
def normDict (o : Option JsonDict) : Option JsonDict :=
  match o with
  | some d => if d.isEmpty then none else some d
  | none => none

/-- Round-trip normal form of a record. -/
def TaskRecord.normalize (r : TaskRecord) : TaskRecord :=
  { r with progress := orNone r.progress, error := orNone r.error,
           result := normDict r.result }


/-! ### Model of the Redis primitives used by the core

Hashes: HSET merges a field mapping into the hash (absent key: a fresh
hash is created with no TTL), HGETALL of a missing or expired key is the
empty dict, EXPIRE refreshes the deadline of a live key.  Expiry is
modelled by an optional absolute deadline together with an explicit
server-clock argument "now" (seconds).

Streams: one stream per task type, consumed by the single consumer
group the code uses ("ai-workers"); entries get increasing ids,
XREADGROUP with the ">" cursor hands out per stream at most COUNT
entries newer than the last delivered one (the Redis COUNT option is a
per-stream bound) and records them as pending, XACK removes an entry
from the pending list and returns how many entries it removed. -/

/-- One hash key of the store: field table and optional expiry
deadline. -/
abbrev HashEntry := TaskHash × Option Nat

/-- A delivery message appended by the producer: the task_id and the
rendered payload (consumer.py reads exactly these two fields). -/
structure StreamMsg where
  task_id : String
  payload : String
  deriving DecidableEq

/-- Per-stream state for the consumer group. -/
structure StreamState where
  entries : List (Nat × StreamMsg)
  nextId : Nat
  lastDelivered : Nat
  pending : List Nat
  deriving DecidableEq

/-- A fresh stream as created by XADD or XGROUP CREATE with mkstream
and id "0". -/
def freshStream : StreamState :=
  { entries := [], nextId := 1, lastDelivered := 0, pending := [] }

/-- The full modelled Redis state. -/
structure RedisState where
  hashes : List (String × HashEntry)
  streams : List (String × StreamState)
  deriving DecidableEq

/-- Association-list lookup. -/
def alookup {α : Type} (l : List (String × α)) (k : String) : Option α :=
  match l with
  | [] => none
  | (k1, v) :: rest => if k1 = k then some v else alookup rest k

/-- Association-list write (replace or append). -/
def aset {α : Type} (l : List (String × α)) (k : String) (v : α) : List (String × α) :=
  match l with
  | [] => [(k, v)]
  | (k1, v1) :: rest => if k1 = k then (k, v) :: rest else (k1, v1) :: aset rest k v

/-- Is a key with this expiry deadline still live at time now? -/
def aliveAt (e : Option Nat) (now : Nat) : Bool :=
  match e with
  | none => true
  | some t => now < t

/-- Field-level override: the update value when present, else the old
value. -/
def ov (m o : Option String) : Option String :=
  match m with
  | some v => some v
  | none => o

/-- HSET field merge: fields present in the mapping overwrite, the
rest keep their value. -/
def TaskHash.merge (base m : TaskHash) : TaskHash where
  task_id := ov m.task_id base.task_id
  task_type := ov m.task_type base.task_type
  status := ov m.status base.status
  progress := ov m.progress base.progress
  payload := ov m.payload base.payload
  result := ov m.result base.result
  error := ov m.error base.error
  created_at := ov m.created_at base.created_at
  started_at := ov m.started_at base.started_at
  completed_at := ov m.completed_at base.completed_at

/-- HSET key mapping: merge into the live hash, or create a fresh hash
(with no TTL) when the key is absent or expired. -/
def hset (st : RedisState) (now : Nat) (key : String) (m : TaskHash) : RedisState :=
  let cur : HashEntry :=
    match alookup st.hashes key with
    | some (h, e) => if aliveAt e now then (h, e) else (emptyHash, none)
    | none => (emptyHash, none)
  { st with hashes := aset st.hashes key (cur.1.merge m, cur.2) }

/-- EXPIRE key ttl: refresh the deadline of a live key; no-op on a
missing or expired key. -/
def expire (st : RedisState) (now : Nat) (key : String) (ttl : Nat) : RedisState :=
  match alookup st.hashes key with
  | some (h, e) =>
    if aliveAt e now then { st with hashes := aset st.hashes key (h, some (now + ttl)) }
    else st
  | none => st

/-- HGETALL key: empty dict for a missing or expired key. -/
def hgetall (st : RedisState) (now : Nat) (key : String) : TaskHash :=
  match alookup st.hashes key with
  | some (h, e) => if aliveAt e now then h else emptyHash
  | none => emptyHash

/-- XADD: append an entry with the next id (creating the stream if
needed). -/
def xadd (st : RedisState) (name : String) (msg : StreamMsg) : RedisState :=
  let ss := (alookup st.streams name).getD freshStream
  let ss2 := { ss with entries := ss.entries ++ [(ss.nextId, msg)], nextId := ss.nextId + 1 }
  { st with streams := aset st.streams name ss2 }

/-- XACK: remove the entry from the pending list of the group,
returning the number of entries removed. -/
def xack (st : RedisState) (name : String) (id : Nat) : RedisState × Nat :=
  match alookup st.streams name with
  | none => (st, 0)
  | some ss =>
    let ss2 := { ss with pending := ss.pending.filter (fun j => if j = id then false else true) }
    ({ st with streams := aset st.streams name ss2 }, ss.pending.count id)

/-! ### TaskStore (app/tasks/store.py) -/

/-- The sliding TTL window of the store, DEFAULT_TTL = 3600 seconds. -/
def DEFAULT_TTL : Nat := 3600

/-- TaskStore.create: build the pending record, HSET its full
serialization under "task:" + task_id, then EXPIRE the key. -/
def TaskStore.create (st : RedisState) (now : Nat) (nowDt : Datetime)
    (task_id : String) (task_type : TaskType) (payload : JsonDict) :
    RedisState × TaskRecord :=
  let record : TaskRecord :=
    { task_id := task_id, task_type := task_type, status := .pending,
      payload := payload, created_at := nowDt }
  let key := "task:" ++ task_id
  let st1 := hset st now key (serialize record)
  let st2 := expire st1 now key DEFAULT_TTL
  (st2, record)

/-- TaskStore.get: HGETALL; an empty dict (missing or expired key) is
the not-found outcome Except.ok none, otherwise the hash is
deserialized (a deserialization failure models a raised exception). -/
def TaskStore.get (st : RedisState) (now : Nat) (task_id : String) :
    Except String (Option TaskRecord) :=
  let data := hgetall st now ("task:" ++ task_id)
  if data = emptyHash then .ok none
  else
    match deserialize data with
    | .error e => .error e
    | .ok r => .ok (some r)

/-- The keyword arguments of TaskStore.update used by the core (each
none models an absent or None keyword, which update skips). -/
structure UpdateArgs where
  status : Option TaskStatus := none
  progress : Option String := none
  result : Option JsonDict := none
  error : Option String := none
  started_at : Option Datetime := none
  completed_at : Option Datetime := none
  deriving DecidableEq

/-- The flat field mapping that TaskStore.update builds from its
keyword arguments: enums to their value, dicts to json.dumps, datetimes
to isoformat, strings unchanged. -/
def serializeArgs (u : UpdateArgs) : TaskHash where
  task_id := none
  task_type := none
  status := u.status.map TaskStatus.value
  progress := u.progress
  payload := none
  result := u.result.map dumps
  error := u.error
  created_at := none
  started_at := u.started_at.map Datetime.isoformat
  completed_at := u.completed_at.map Datetime.isoformat

/-- TaskStore.update: skip None fields; when at least one field
remains, HSET the mapping and refresh the TTL, otherwise do nothing. -/
def TaskStore.update (st : RedisState) (now : Nat) (task_id : String)
    (u : UpdateArgs) : RedisState :=
  let updates := serializeArgs u
  if updates = emptyHash then st
  else
    let key := "task:" ++ task_id
    expire (hset st now key updates) now key DEFAULT_TTL

/-! ### Worker lifecycle helpers (app/tasks/workers/base.py) -/

/-- BaseWorker.mark_running. -/
def markRunning (st : RedisState) (now : Nat) (task_id : String)
    (nowDt : Datetime) : RedisState :=
  TaskStore.update st now task_id
    { status := some .running, started_at := some nowDt }

/-- BaseWorker.update_progress. -/
def updateProgress (st : RedisState) (now : Nat) (task_id : String)
    (progress : String) : RedisState :=
  TaskStore.update st now task_id { progress := some progress }

/-- BaseWorker.mark_completed. -/
def markCompleted (st : RedisState) (now : Nat) (task_id : String)
    (result : JsonDict) (nowDt : Datetime) : RedisState :=
  TaskStore.update st now task_id
    { status := some .completed, result := some result,
      progress := some "done", completed_at := some nowDt }

/-- BaseWorker.mark_failed. -/
def markFailed (st : RedisState) (now : Nat) (task_id : String)
    (error : String) (nowDt : Datetime) : RedisState :=
  TaskStore.update st now task_id
    { status := some .failed, error := some error, completed_at := some nowDt }

/-! ### TaskProducer (app/tasks/producer.py) -/

/-- TaskProducer.submit: use the given task_id or the freshly generated
uuid4 value (modelled by the freshId argument), store the pending
record, then XADD the delivery message to the stream named for the
task type. -/
def TaskProducer.submit (st : RedisState) (now : Nat) (nowDt : Datetime)
    (task_type : TaskType) (payload : JsonDict)
    (task_id : Option String) (freshId : String) :
    RedisState × TaskRecord :=
  let tid := task_id.getD freshId
  let cr := TaskStore.create st now nowDt tid task_type payload
  let streamName := "tasks:" ++ task_type.value
  let st2 := xadd cr.1 streamName { task_id := tid, payload := dumps payload }
  (st2, cr.2)

/-! ### Worker registry (app/tasks/registry.py) and TaskConsumer
(app/tasks/consumer.py) -/

/-- Python str.replace replacing every occurrence, by fuel over the
input length. -/
def replaceAux (old new : List Char) : Nat → List Char → List Char
  | _, [] => []
  | 0, s => s
  | fuel + 1, c :: cs =>
    if old.isPrefixOf (c :: cs) then
      new ++ replaceAux old new fuel ((c :: cs).drop old.length)
    else c :: replaceAux old new fuel cs

/-- Python str.replace. -/
def pyReplace (s old new : String) : String :=
  String.mk (replaceAux old.data new.data s.data.length s.data)

/-- The keys of WORKER_REGISTRY once app.tasks.workers is imported:
hex_worker.py, job_worker.py and ocr_worker.py each register one
worker class. -/
def WORKER_REGISTRY : List String := ["hex", "job", "ocr"]

/-- Abstract behavior of a resolved worker run: every store access of
a worker goes through TaskStore, so a run may mutate the task hashes
arbitrarily, and it either returns normally (false) or raises (true).
The consumer code is quantified over this behavior. -/
abbrev WorkerRun :=
  String → String → JsonDict → List (String × HashEntry) → List (String × HashEntry) × Bool

/-- TaskConsumer._process_message: inside try, parse the payload
(json.loads may raise), resolve the worker (get_worker raises KeyError
when the task type is not registered) and run it (the run may mutate
the store and may raise); every exception is caught and logged, and the
finally block XACKs the message unconditionally.  Returns the new state
and the XACK return value. -/
def processMessage (runW : WorkerRun) (st : RedisState)
    (streamName : String) (msgId : Nat) (data : StreamMsg) : RedisState × Nat :=
  let task_type := pyReplace streamName "tasks:" ""
  let st1 :=
    match loads data.payload with
    | none => st
    | some payload =>
      if WORKER_REGISTRY.contains task_type then
        { st with hashes := (runW task_type data.task_id payload st.hashes).1 }
      else st
  xack st1 streamName msgId

/-- One stream read of XREADGROUP with the ">" cursor: up to count
entries newer than lastDelivered are handed out, recorded as pending,
and the cursor advances. -/
def readStream (ss : StreamState) (count : Nat) : StreamState × List (Nat × StreamMsg) :=
  let new := (ss.entries.filter
    (fun e => if ss.lastDelivered < e.1 then true else false)).take count
  match new.getLast? with
  | none => (ss, [])
  | some last =>
    ({ ss with lastDelivered := last.1,
               pending := ss.pending ++ new.map (fun e => e.1) }, new)

/-- The XREADGROUP step for one requested stream: deliver up to count
new entries, or nothing. -/
def readOne (st : RedisState) (n : String) (count : Nat) :
    RedisState × List (String × List (Nat × StreamMsg)) :=
  match alookup st.streams n with
  | none => (st, [])
  | some ss =>
    let rs := readStream ss count
    if rs.2 = [] then (st, [])
    else ({ st with streams := aset st.streams n rs.1 }, [(n, rs.2)])

/-- XREADGROUP over several streams: COUNT is a per-stream bound;
streams with nothing new are omitted from the reply. -/
def xreadgroup (st : RedisState) (names : List String) (count : Nat) :
    RedisState × List (String × List (Nat × StreamMsg)) :=
  match names with
  | [] => (st, [])
  | n :: rest =>
    let s := readOne st n count
    let (st2, more) := xreadgroup s.1 rest count
    (st2, s.2 ++ more)

/-- TaskConsumer._ensure_consumer_groups for one stream: XGROUP CREATE
with mkstream and id "0"; BUSYGROUP (the stream already has the group)
is ignored. -/
def ensureGroup (st : RedisState) (name : String) : RedisState :=
  match alookup st.streams name with
  | some _ => st
  | none => { st with streams := aset st.streams name freshStream }

/-- TaskConsumer._ensure_consumer_groups over the configured types. -/
def ensureGroups (st : RedisState) : List String → RedisState
  | [] => st
  | t :: rest => ensureGroups (ensureGroup st ("tasks:" ++ t)) rest

/-- The inner dispatch loop of _consume_once over the entries of one
stream. -/
def dispatchEntries (runW : WorkerRun) :
    RedisState → String → List (Nat × StreamMsg) → RedisState × List (String × Nat)
  | st, _, [] => (st, [])
  | st, name, (id, msg) :: rest =>
    let (st1, _) := processMessage runW st name id msg
    let (st2, d) := dispatchEntries runW st1 name rest
    (st2, (name, id) :: d)

/-- The outer dispatch loop of _consume_once over the streams of the
reply. -/
def dispatchAll (runW : WorkerRun) :
    RedisState → List (String × List (Nat × StreamMsg)) → RedisState × List (String × Nat)
  | st, [] => (st, [])
  | st, (name, entries) :: rest =>
    let (st1, d1) := dispatchEntries runW st name entries
    let (st2, d2) := dispatchAll runW st1 rest
    (st2, d1 ++ d2)

/-- TaskConsumer._consume_once: XREADGROUP with count 1 across the
streams of the configured task types, then process every returned
entry.  Returns the new state and the dispatched (stream, entry id)
pairs of the cycle. -/
def consumeOnce (runW : WorkerRun) (st : RedisState) (task_types : List String) :
    RedisState × List (String × Nat) :=
  let names := task_types.map (fun t => "tasks:" ++ t)
  let rd := xreadgroup st names 1
  dispatchAll runW rd.1 rd.2

/-! ### Observation helpers used by the theorems -/

/-- The raw hash stored under a task key, ignoring expiry. -/
def hashAt (st : RedisState) (task_id : String) : Option TaskHash :=
  (alookup st.hashes ("task:" ++ task_id)).map (fun e => e.1)

/-- The expiry deadline stored under a task key. -/
def expiryAt (st : RedisState) (task_id : String) : Option (Option Nat) :=
  (alookup st.hashes ("task:" ++ task_id)).map (fun e => e.2)

/-- The status field of the stored hash of a task. -/
def statusAt (st : RedisState) (task_id : String) : Option String :=
  match hashAt st task_id with
  | some h => h.status
  | none => none

/-- The error field of the stored hash of a task. -/
def errorAt (st : RedisState) (task_id : String) : Option String :=
  match hashAt st task_id with
  | some h => h.error
  | none => none

/-- The result field of the stored hash of a task. -/
def resultAt (st : RedisState) (task_id : String) : Option String :=
  match hashAt st task_id with
  | some h => h.result
  | none => none

/-- The entries of a stream (empty for a missing stream). -/
def entriesAt (st : RedisState) (name : String) : List (Nat × StreamMsg) :=
  match alookup st.streams name with
  | some ss => ss.entries
  | none => []

/-- The pending (delivered, unacknowledged) entry ids of a stream. -/
def pendingAt (st : RedisState) (name : String) : List Nat :=
  match alookup st.streams name with
  | some ss => ss.pending
  | none => []

deriving instance DecidableEq for Except

/-! ### Concrete fixtures used by witnesses and counterexamples -/

/-- A concrete datetime value. -/
def dtA : Datetime := ⟨"2024-01-01T00:00:00", by decide⟩

/-- A later concrete datetime value. -/
def dtB : Datetime := ⟨"2024-01-01T00:00:01", by decide⟩

/-- A still later concrete datetime value. -/
def dtC : Datetime := ⟨"2024-01-01T00:00:02", by decide⟩

/-- The empty Redis state. -/
def st0 : RedisState := { hashes := [], streams := [] }

/-- A worker behavior that leaves the store unchanged and returns
normally. -/
def runW0 : WorkerRun := fun _ _ _ h => (h, false)

/-- State after creating task t1 (type hex) at time 0. -/
def stCreated : RedisState :=
  (TaskStore.create st0 0 dtA "t1" .hex [("u", "alice")]).1

/-- The serialized hash stored in stCreated. -/
def hCreated : TaskHash :=
  serialize { task_id := "t1", task_type := .hex, status := .pending,
              payload := [("u", "alice")], created_at := dtA }

/-- stCreated after mark_failed at time 1. -/
def stFailed : RedisState := markFailed stCreated 1 "t1" "boom" dtB

/-- stFailed after mark_completed at time 2: the sequence the C2
counterexample evaluates. -/
def stBoth : RedisState := markCompleted stFailed 2 "t1" [("k", "v")] dtC

/-- stCreated after mark_running at time 1. -/
def stRun : RedisState := markRunning stCreated 1 "t1" dtB

/-- stRun after mark_completed at time 2: a terminal record reached
through the canonical lifecycle. -/
def stDone : RedisState := markCompleted stRun 2 "t1" [("k", "v")] dtC

/-- A progress-only update argument. -/
def uProg : UpdateArgs := { progress := some "step-1" }

/-- A pending-record hash for a task whose type (image_gen) has no
worker registration. -/
def hUnreg : TaskHash :=
  { task_id := some "t1", task_type := some "image_gen", status := some "pending",
    progress := some "", payload := some "\x7b\x7d", result := some "", error := some "",
    created_at := some "2024-01-01T00:00:00", started_at := some "", completed_at := some "" }

/-- A state with a pending record for t1 of the unregistered type
image_gen and one undelivered message for it on the stream of that type. -/
def stUnreg : RedisState :=
  { hashes := [("task:t1", (hUnreg, some 3600))],
    streams := [("tasks:image_gen",
      { entries := [(1, { task_id := "t1", payload := "\x7b\x7d" })],
        nextId := 2, lastDelivered := 0, pending := [] })] }

/-- A state with one undelivered message on each of the hex and job
streams. -/
def stTwo : RedisState :=
  { hashes := [],
    streams := [("tasks:hex",
      { entries := [(1, { task_id := "a", payload := "\x7b\x7d" })],
        nextId := 2, lastDelivered := 0, pending := [] }),
      ("tasks:job",
      { entries := [(1, { task_id := "b", payload := "\x7b\x7d" })],
        nextId := 2, lastDelivered := 0, pending := [] })] }

/-- A state with one delivered, unacknowledged entry (id 7) on the hex
stream. -/
def stPend : RedisState :=
  { hashes := [],
    streams := [("tasks:hex",
      { entries := [(7, { task_id := "a", payload := "\x7b\x7d" })],
        nextId := 8, lastDelivered := 7, pending := [7] })] }

/-- A record with non-empty optional fields, for the round-trip
witness. -/
def rEx : TaskRecord :=
  { task_id := "t9", task_type := .job, status := .completed,
    progress := some "done", payload := [("q", "x")],
    result := some [("score", "10")], error := none,
    created_at := dtA, started_at := some dtB, completed_at := some dtC }

/-! ### Proof development -/

theorem parseStr_escape (s rest : List Char) :
    parseStr (escape s ++ '\"' :: rest) = some (s, rest) := by
  induction s with
  | nil =>
    rw [escape, List.nil_append, parseStr.eq_def]
    simp
  | cons c cs ih =>
    by_cases hc : c = '\"' ∨ c = '\\'
    · have h1 : ('\\' : Char) ≠ '\"' := by decide
      rw [escape, escChar, if_pos hc, List.cons_append, List.cons_append, parseStr.eq_def]
      simp [h1, ih]
    · obtain ⟨hc1, hc2⟩ := not_or.mp hc
      rw [escape, escChar, if_neg hc, List.cons_append, parseStr.eq_def]
      simp [hc1, hc2, ih]

theorem parsePair_dumpPair (p : String × String) (rest : List Char) :
    parsePair (dumpPair p ++ rest) = some (p, rest) := by
  obtain ⟨k, v⟩ := p
  have h1 : (dumpPair (k, v) ++ rest).head? = some '\"' := by
    simp [dumpPair]
  have h2 : (dumpPair (k, v) ++ rest).tail
      = escape k.data ++ '\"' :: (':' :: ' ' :: '\"' :: (escape v.data ++ '\"' :: rest)) := by
    simp [dumpPair]
  rw [parsePair, if_pos h1, h2, parseStr_escape]
  simp [parseStr_escape]

theorem itemsChars_length (d : JsonDict) : d.length ≤ (itemsChars d).length := by
  induction d with
  | nil => simp [itemsChars]
  | cons p ps ih =>
    cases ps with
    | nil => simp [itemsChars, dumpPair]
    | cons q qs =>
      simp only [itemsChars, List.length_cons, List.length_append]
      simp only [itemsChars, List.length_cons] at ih
      simp [dumpPair]
      omega

theorem parseItems_spec (d : JsonDict) :
    ∀ (fuel : Nat) (rest : List Char), d.length < fuel →
      parseItems fuel (itemsChars d ++ '\x7d' :: rest) = some (d, rest) := by
  induction d with
  | nil =>
    intro fuel rest h
    cases fuel with
    | zero => omega
    | succ f =>
      rw [itemsChars, List.nil_append, parseItems.eq_def]
      simp
  | cons p ps ih =>
    intro fuel rest h
    cases fuel with
    | zero => omega
    | succ f =>
      cases ps with
      | nil =>
        rw [itemsChars, parseItems.eq_def]
        simp only []
        rw [if_neg (by simp [dumpPair]), parsePair_dumpPair]
        simp
      | cons q qs =>
        rw [itemsChars, List.append_assoc, List.cons_append, List.cons_append,
          parseItems.eq_def]
        simp only []
        rw [if_neg (by simp [dumpPair]), parsePair_dumpPair]
        have hf : (q :: qs).length < f := by
          simp only [List.length_cons] at h ⊢
          omega
        simp [ih f rest hf]

theorem loads_dumps (d : JsonDict) : loads (dumps d) = some d := by
  have h := parseItems_spec d ((itemsChars d ++ ['\x7d']).length) []
    (by have := itemsChars_length d; simp; omega)
  simp only [loads, dumps]
  rw [show itemsChars d ++ '\x7d' :: [] = itemsChars d ++ ['\x7d'] from rfl] at h
  rw [h]
  simp

theorem dumps_ne_empty (d : JsonDict) : dumps d ≠ "" := by
  simp [dumps, String.ext_iff]

theorem taskType_ofValue_value (t : TaskType) :
    TaskType.ofValue t.value = some t := by
  cases t <;> decide

theorem taskStatus_ofValue_value (s : TaskStatus) :
    TaskStatus.ofValue s.value = some s := by
  cases s <;> decide

theorem isoformat_ne_empty (d : Datetime) : (Datetime.isoformat d = "") = False :=
  eq_false d.property

theorem val_ne_empty (d : Datetime) : (d.val = "") = False :=
  eq_false d.property

theorem orNone_getD (o : Option String) : orNone (some (o.getD "")) = orNone o := by
  cases o <;> simp [orNone]

theorem datetime_eta (d : Datetime) (h : Datetime.isoformat d ≠ "") :
    (⟨Datetime.isoformat d, h⟩ : Datetime) = d := rfl

theorem deserialize_serialize (r : TaskRecord) :
    deserialize (serialize r) = .ok r.normalize := by
  obtain ⟨tid, tty, sty, prog, payload, result, err, created, started, completed⟩ := r
  cases result with
  | none =>
    cases started <;> cases completed <;>
      simp [deserialize, serialize, taskType_ofValue_value, taskStatus_ofValue_value,
        dumps_ne_empty, loads_dumps, TaskRecord.normalize, normDict, orNone_getD,
        isoformat_ne_empty, val_ne_empty, Subtype.coe_eta, datetime_eta]
  | some d =>
    by_cases hd : d.isEmpty <;> cases started <;> cases completed <;>
      simp [hd, deserialize, serialize, taskType_ofValue_value, taskStatus_ofValue_value,
        dumps_ne_empty, loads_dumps, TaskRecord.normalize, normDict, orNone_getD,
        isoformat_ne_empty, val_ne_empty, Subtype.coe_eta, datetime_eta]

/-! ### State lemmas -/

theorem alookup_aset_self {α : Type} (l : List (String × α)) (k : String) (v : α) :
    alookup (aset l k v) k = some v := by
  induction l with
  | nil => simp [aset, alookup]
  | cons p rest ih =>
    obtain ⟨k1, v1⟩ := p
    by_cases h : k1 = k
    · simp [aset, alookup, h]
    · simp [aset, alookup, h, ih]

theorem alookup_aset_ne {α : Type} (l : List (String × α)) (k1 k2 : String) (v : α)
    (h : k1 ≠ k2) : alookup (aset l k1 v) k2 = alookup l k2 := by
  induction l with
  | nil => simp [aset, alookup, h]
  | cons p rest ih =>
    obtain ⟨k0, v0⟩ := p
    by_cases h0 : k0 = k1
    · subst h0
      simp [aset, alookup, h]
    · simp [aset, alookup, h0, ih]

theorem streams_hset (st : RedisState) (now : Nat) (key : String) (m : TaskHash) :
    (hset st now key m).streams = st.streams := rfl

theorem streams_expire (st : RedisState) (now : Nat) (key : String) (ttl : Nat) :
    (expire st now key ttl).streams = st.streams := by
  unfold expire
  split <;> first | rfl | split <;> rfl

theorem streams_update (st : RedisState) (now : Nat) (tid : String) (u : UpdateArgs) :
    (TaskStore.update st now tid u).streams = st.streams := by
  by_cases h : serializeArgs u = emptyHash
  · simp [TaskStore.update, h]
  · simp [TaskStore.update, h, streams_expire, streams_hset]

theorem streams_create (st : RedisState) (now : Nat) (ndt : Datetime) (tid : String)
    (ty : TaskType) (p : JsonDict) :
    (TaskStore.create st now ndt tid ty p).1.streams = st.streams := by
  unfold TaskStore.create
  rw [streams_expire, streams_hset]

theorem hashes_xadd (st : RedisState) (name : String) (msg : StreamMsg) :
    (xadd st name msg).hashes = st.hashes := rfl

theorem merge_serialize (b : TaskHash) (r : TaskRecord) :
    TaskHash.merge b (serialize r) = serialize r := rfl

theorem ov_none (o : Option String) : ov none o = o := rfl

theorem aliveAt_none (now : Nat) : aliveAt none now = true := rfl

/-- Effect of HSET followed by EXPIRE on the written key: the stored
hash is the live hash merged with the mapping, and the deadline is
refreshed. -/
theorem hset_expire_self (st : RedisState) (now : Nat) (key : String)
    (m : TaskHash) (ttl : Nat) :
    alookup (expire (hset st now key m) now key ttl).hashes key
      = some ((hgetall st now key).merge m, some (now + ttl)) := by
  unfold hset expire hgetall
  cases hl : alookup st.hashes key with
  | none => simp [hl, alookup_aset_self, aliveAt_none]
  | some he =>
    obtain ⟨h, e⟩ := he
    cases ha : aliveAt e now with
    | true => simp [hl, ha, alookup_aset_self]
    | false => simp [hl, ha, alookup_aset_self, aliveAt_none]

/-- Effect of TaskStore.update on the stored hash of the task when at
least one field survives the None filter. -/
theorem update_hash (st : RedisState) (now : Nat) (tid : String) (u : UpdateArgs)
    (hne : serializeArgs u ≠ emptyHash) :
    alookup (TaskStore.update st now tid u).hashes ("task:" ++ tid)
      = some ((hgetall st now ("task:" ++ tid)).merge (serializeArgs u),
              some (now + DEFAULT_TTL)) := by
  unfold TaskStore.update
  rw [if_neg hne]
  exact hset_expire_self st now ("task:" ++ tid) (serializeArgs u) DEFAULT_TTL

/-- Effect of TaskStore.create on the stored hash of the task: full
overwrite with the serialized fresh record and a fresh deadline. -/
theorem create_hash (st : RedisState) (now : Nat) (ndt : Datetime) (tid : String)
    (ty : TaskType) (p : JsonDict) :
    alookup (TaskStore.create st now ndt tid ty p).1.hashes ("task:" ++ tid)
      = some (serialize (TaskStore.create st now ndt tid ty p).2,
              some (now + DEFAULT_TTL)) := by
  unfold TaskStore.create
  simp only []
  rw [hset_expire_self, merge_serialize]

theorem serialize_ne_emptyHash (r : TaskRecord) : serialize r ≠ emptyHash := by
  intro h
  have := congrArg TaskHash.task_id h
  simp [serialize, emptyHash] at this



theorem hashAt_update (st : RedisState) (now : Nat) (tid : String) (u : UpdateArgs)
    (hne : serializeArgs u ≠ emptyHash) :
    hashAt (TaskStore.update st now tid u) tid
      = some ((hgetall st now ("task:" ++ tid)).merge (serializeArgs u)) := by
  rw [hashAt, update_hash st now tid u hne]
  rfl

theorem statusAt_of_hashAt (st : RedisState) (tid : String) (h : TaskHash)
    (hh : hashAt st tid = some h) : statusAt st tid = h.status := by
  rw [statusAt, hh]

theorem errorAt_of_hashAt (st : RedisState) (tid : String) (h : TaskHash)
    (hh : hashAt st tid = some h) : errorAt st tid = h.error := by
  rw [errorAt, hh]

theorem resultAt_of_hashAt (st : RedisState) (tid : String) (h : TaskHash)
    (hh : hashAt st tid = some h) : resultAt st tid = h.result := by
  rw [resultAt, hh]

theorem serializeArgs_status_ne (u : UpdateArgs) (sv : TaskStatus)
    (h : u.status = some sv) : serializeArgs u ≠ emptyHash := by
  intro hc
  have h2 := congrArg TaskHash.status hc
  simp [serializeArgs, emptyHash, h] at h2

theorem serializeArgs_progress_ne (u : UpdateArgs) (p : String)
    (h : u.progress = some p) : serializeArgs u ≠ emptyHash := by
  intro hc
  have h2 := congrArg TaskHash.progress hc
  simp [serializeArgs, emptyHash, h] at h2

theorem ov_ov (m o : Option String) : ov m (ov m o) = ov m o := by
  cases m <;> rfl

theorem merge_merge (b m : TaskHash) : (b.merge m).merge m = b.merge m := by
  simp [TaskHash.merge, ov_ov]

theorem merge_emptyHash (h : TaskHash) : h.merge emptyHash = h := rfl

theorem hgetall_of_alookup (st : RedisState) (now : Nat) (key : String)
    (h : TaskHash) (e : Option Nat)
    (hl : alookup st.hashes key = some (h, e)) (ha : aliveAt e now = true) :
    hgetall st now key = h := by
  rw [hgetall, hl]
  simp [ha]

theorem get_after_create (st : RedisState) (now : Nat) (ndt : Datetime)
    (tid : String) (ty : TaskType) (p : JsonDict) :
    TaskStore.get (TaskStore.create st now ndt tid ty p).1 now tid
      = .ok (some (TaskStore.create st now ndt tid ty p).2) := by
  have hl := create_hash st now ndt tid ty p
  have halive : aliveAt (some (now + DEFAULT_TTL)) now = true := by
    simp [aliveAt, DEFAULT_TTL]
  rw [TaskStore.get]
  simp only [hgetall, hl, halive, if_true]
  rw [if_neg (serialize_ne_emptyHash _), deserialize_serialize]
  rfl

theorem get_hashes_only (st1 st2 : RedisState) (h : st1.hashes = st2.hashes)
    (now : Nat) (tid : String) :
    TaskStore.get st1 now tid = TaskStore.get st2 now tid := by
  rw [TaskStore.get, TaskStore.get, hgetall, hgetall, h]

theorem entriesAt_streams_eq (st1 st2 : RedisState) (h : st1.streams = st2.streams)
    (name : String) : entriesAt st1 name = entriesAt st2 name := by
  rw [entriesAt, entriesAt, h]

theorem entriesAt_xadd (st : RedisState) (name : String) (msg : StreamMsg) :
    entriesAt (xadd st name msg) name
      = entriesAt st name
        ++ [(((alookup st.streams name).getD freshStream).nextId, msg)] := by
  unfold xadd entriesAt
  cases hl : alookup st.streams name <;> simp [hl, alookup_aset_self, freshStream]

theorem count_filter_ne (l : List Nat) (id : Nat) :
    (l.filter (fun j => if j = id then false else true)).count id = 0 := by
  rw [List.count_eq_zero]
  intro hmem
  have h2 := List.of_mem_filter hmem
  simp at h2

theorem xack_spec (st : RedisState) (name : String) (id : Nat)
    (hcount : (pendingAt st name).count id = 1) :
    (xack st name id).2 = 1 ∧ (pendingAt (xack st name id).1 name).count id = 0 := by
  cases hl : alookup st.streams name with
  | none =>
    rw [pendingAt, hl] at hcount
    simp at hcount
  | some ss =>
    rw [pendingAt, hl] at hcount
    constructor
    · simp only [xack, hl]
      exact hcount
    · simp only [xack, hl, pendingAt, alookup_aset_self]
      exact count_filter_ne ss.pending id

theorem readOne_batch_le (st : RedisState) (n : String) (c : Nat)
    (b : String × List (Nat × StreamMsg)) (hb : b ∈ (readOne st n c).2) :
    b.2.length ≤ c := by
  rw [readOne] at hb
  cases hl : alookup st.streams n with
  | none => rw [hl] at hb; simp at hb
  | some ss =>
    rw [hl] at hb
    by_cases hinner : (readStream ss c).2 = []
    · simp [hinner] at hb
    · simp only [hinner, if_false] at hb
      simp only [List.mem_singleton] at hb
      subst hb
      rw [readStream]
      cases hg : ((ss.entries.filter
          (fun e => if ss.lastDelivered < e.1 then true else false)).take c).getLast? with
      | none => simp
      | some last =>
        simp only []
        exact List.length_take_le c _

theorem readOne_len_le (st : RedisState) (n : String) (c : Nat) :
    (readOne st n c).2.length ≤ 1 := by
  rw [readOne]
  cases hl : alookup st.streams n with
  | none => simp
  | some ss =>
    by_cases hinner : (readStream ss c).2 = [] <;> simp [hinner]

theorem xreadgroup_mem_le (c : Nat) (names : List String) :
    ∀ (st : RedisState) (b : String × List (Nat × StreamMsg)),
      b ∈ (xreadgroup st names c).2 → b.2.length ≤ c := by
  induction names with
  | nil => intro st b hb; simp [xreadgroup] at hb
  | cons n rest ih =>
    intro st b hb
    rw [xreadgroup] at hb
    simp only [List.mem_append] at hb
    cases hb with
    | inl h => exact readOne_batch_le st n c b h
    | inr h => exact ih _ b h

theorem xreadgroup_len_le (c : Nat) (names : List String) :
    ∀ (st : RedisState), (xreadgroup st names c).2.length ≤ names.length := by
  induction names with
  | nil => intro st; simp [xreadgroup]
  | cons n rest ih =>
    intro st
    rw [xreadgroup]
    simp only [List.length_append, List.length_cons]
    have h1 := readOne_len_le st n c
    have h2 := ih (readOne st n c).1
    omega

theorem dispatchEntries_length (runW : WorkerRun) (name : String) :
    ∀ (l : List (Nat × StreamMsg)) (st : RedisState),
      (dispatchEntries runW st name l).2.length = l.length := by
  intro l
  induction l with
  | nil => intro st; rw [dispatchEntries]; rfl
  | cons e rest ih =>
    intro st
    obtain ⟨id, msg⟩ := e
    rw [dispatchEntries]
    simp [ih]

theorem dispatchAll_len_le (runW : WorkerRun) :
    ∀ (bs : List (String × List (Nat × StreamMsg))) (st : RedisState),
      (∀ b ∈ bs, b.2.length ≤ 1) →
      (dispatchAll runW st bs).2.length ≤ bs.length := by
  intro bs
  induction bs with
  | nil => intro st h; rw [dispatchAll]; simp
  | cons b rest ih =>
    intro st h
    obtain ⟨name, entries⟩ := b
    rw [dispatchAll]
    simp only [List.length_append, List.length_cons]
    have h1 : entries.length ≤ 1 := h (name, entries) (by simp)
    have h2 := ih (dispatchEntries runW st name entries).1
      (fun b hb => h b (List.mem_cons_of_mem _ hb))
    have h3 := dispatchEntries_length runW name entries st
    omega


/-! ### Claim theorems -/

/-- C10: deserializing the flat serialization of a record is the
identity whenever progress and error are each absent or non-empty and
result is absent or a non-empty mapping; outside these preconditions
the round trip collapses empty-string progress or error and an empty
result mapping to absent. -/
theorem C10_roundtrip :
    (∀ r : TaskRecord, r.progress ≠ some "" → r.error ≠ some "" → r.result ≠ some [] →
       deserialize (serialize r) = .ok r) ∧
    (∀ r : TaskRecord, deserialize (serialize r) = .ok r.normalize) := by
  constructor
  · intro r h1 h2 h3
    obtain ⟨tid, ty, sty, prog, pl, res, err, ca, sa, coa⟩ := r
    rw [deserialize_serialize]
    have hp : orNone prog = prog := by
      cases hp0 : prog with
      | none => rfl
      | some v =>
        have hv : ¬v = "" := fun hv => h1 (by rw [hp0, hv])
        simp [orNone, hv]
    have he : orNone err = err := by
      cases he0 : err with
      | none => rfl
      | some v =>
        have hv : ¬v = "" := fun hv => h2 (by rw [he0, hv])
        simp [orNone, hv]
    have hr : normDict res = res := by
      cases hr0 : res with
      | none => rfl
      | some d =>
        cases d with
        | nil => rw [hr0] at h3; exact absurd rfl h3
        | cons a l => simp [normDict]
    rw [TaskRecord.normalize]
    rw [hp, he, hr]
  · exact deserialize_serialize

/-- C10 witness: the round trip is the identity on a concrete record
with non-empty optional fields. -/
theorem C10_witness : deserialize (serialize rEx) = .ok rEx :=
  C10_roundtrip.1 rEx (by decide) (by decide) (by decide)

/-- C2 counterexample: along the reachable sequence create,
mark_failed, mark_completed of the same task, the stored record ends
with status completed while the error written by mark_failed is still
set, so a completed record does not have its error unset and
mark_completed does not clear a stale error. -/
theorem C2_counterexample :
    statusAt stBoth "t1" = some "completed" ∧
    errorAt stBoth "t1" = some "boom" ∧
    TaskStore.get stBoth 2 "t1"
      = .ok (some { task_id := "t1", task_type := .hex, status := .completed,
                    progress := some "done", payload := [("u", "alice")],
                    result := some [("k", "v")], error := some "boom",
                    created_at := dtA, started_at := none,
                    completed_at := some dtC }) := by
  decide

/-- C2 (amended): mark_completed sets status completed and stores the
result but leaves any previously written error in place, and
mark_failed sets status failed and the error but leaves any previously
written result in place; exactly-one-of-result-error therefore holds
exactly for terminal records that never entered the opposite terminal
state. -/
theorem C2_amended (st : RedisState) (now : Nat) (tid : String)
    (res : JsonDict) (err : String) (ndt : Datetime) :
    statusAt (markCompleted st now tid res ndt) tid = some "completed" ∧
    resultAt (markCompleted st now tid res ndt) tid = some (dumps res) ∧
    errorAt (markCompleted st now tid res ndt) tid
      = (hgetall st now ("task:" ++ tid)).error ∧
    statusAt (markFailed st now tid err ndt) tid = some "failed" ∧
    errorAt (markFailed st now tid err ndt) tid = some err ∧
    resultAt (markFailed st now tid err ndt) tid
      = (hgetall st now ("task:" ++ tid)).result := by
  have hne1 : serializeArgs { status := some TaskStatus.completed, result := some res, progress := some "done", completed_at := some ndt } ≠ emptyHash :=
    serializeArgs_status_ne _ _ rfl
  have hne2 : serializeArgs { status := some TaskStatus.failed, error := some err, completed_at := some ndt } ≠ emptyHash :=
    serializeArgs_status_ne _ _ rfl
  have h1 := hashAt_update st now tid _ hne1
  have h2 := hashAt_update st now tid _ hne2
  refine ⟨?_, ?_, ?_, ?_, ?_, ?_⟩
  · rw [markCompleted, statusAt_of_hashAt _ _ _ h1]
    simp [TaskHash.merge, serializeArgs, ov, TaskStatus.value]
  · rw [markCompleted, resultAt_of_hashAt _ _ _ h1]
    simp [TaskHash.merge, serializeArgs, ov]
  · rw [markCompleted, errorAt_of_hashAt _ _ _ h1]
    simp [TaskHash.merge, serializeArgs, ov]
  · rw [markFailed, statusAt_of_hashAt _ _ _ h2]
    simp [TaskHash.merge, serializeArgs, ov, TaskStatus.value]
  · rw [markFailed, errorAt_of_hashAt _ _ _ h2]
    simp [TaskHash.merge, serializeArgs, ov]
  · rw [markFailed, resultAt_of_hashAt _ _ _ h2]
    simp [TaskHash.merge, serializeArgs, ov]

/-- C5 counterexample: an update call whose fields are all None writes
nothing and does not refresh the TTL: after create at time 0 and such
an update at time 1000, the deadline is still 3600 (not 1000 + 3600)
and a get at time 4000 is already not-found. -/
theorem C5_counterexample :
    TaskStore.update stCreated 1000 "t1" {} = stCreated ∧
    expiryAt (TaskStore.update stCreated 1000 "t1" {}) "t1" = some (some 3600) ∧
    TaskStore.get (TaskStore.update stCreated 1000 "t1" {}) 4000 "t1" = .ok none := by
  decide

/-- C5 (amended): every create and every update that writes at least
one field (one non-None keyword) refreshes the expiry deadline to the
call time plus the fixed one-hour window, while an all-None update
writes nothing and leaves the deadline alone; reading a record whose
deadline has passed gives the same not-found outcome as reading a
task_id that was never submitted. -/
theorem C5_amended :
    (∀ (st : RedisState) (now : Nat) (ndt : Datetime) (tid : String) (ty : TaskType)
        (p : JsonDict),
       expiryAt (TaskStore.create st now ndt tid ty p).1 tid
         = some (some (now + DEFAULT_TTL))) ∧
    (∀ (st : RedisState) (now : Nat) (tid : String) (u : UpdateArgs),
       serializeArgs u ≠ emptyHash →
       expiryAt (TaskStore.update st now tid u) tid = some (some (now + DEFAULT_TTL))) ∧
    (∀ (st : RedisState) (now : Nat) (tid : String) (h : TaskHash) (t : Nat),
       alookup st.hashes ("task:" ++ tid) = some (h, some t) → t ≤ now →
       TaskStore.get st now tid = .ok none) ∧
    (∀ (now : Nat) (tid : String), TaskStore.get st0 now tid = .ok none) := by
  refine ⟨?_, ?_, ?_, ?_⟩
  · intro st now ndt tid ty p
    rw [expiryAt, create_hash]
    rfl
  · intro st now tid u hne
    rw [expiryAt, update_hash st now tid u hne]
    rfl
  · intro st now tid h t hl hle
    have hdead : aliveAt (some t) now = false := by
      simp [aliveAt]
      omega
    rw [TaskStore.get]
    simp [hgetall, hl, hdead]
  · intro now tid
    rw [TaskStore.get]
    simp [hgetall, st0, alookup]

/-- C5 witness: a one-field update at time 5 refreshes the deadline to
5 + 3600, and the record created at time 0 is not-found at time
4000. -/
theorem C5_witness :
    expiryAt (TaskStore.update stCreated 5 "t1" uProg) "t1"
      = some (some (5 + DEFAULT_TTL)) ∧
    TaskStore.get stCreated 4000 "t1" = .ok none :=
  ⟨C5_amended.2.1 stCreated 5 "t1" uProg (by decide),
   C5_amended.2.2.1 stCreated 4000 "t1" hCreated 3600 (by decide) (by decide)⟩

/-- C6: TaskStore.update is a partial update: the stored hash becomes
the old hash merged with the supplied fields, every field not supplied
keeps its previous value (including the four field names update never
writes), and re-applying the same update leaves the stored fields in
the same state as after the first application. -/
theorem C6_partial_update (st : RedisState) (now now2 : Nat) (tid : String)
    (u : UpdateArgs) (h : TaskHash) (e : Option Nat)
    (hl : alookup st.hashes ("task:" ++ tid) = some (h, e))
    (ha : aliveAt e now = true)
    (hlt : now2 < now + DEFAULT_TTL) :
    hashAt (TaskStore.update st now tid u) tid = some (h.merge (serializeArgs u)) ∧
    (u.status = none → (h.merge (serializeArgs u)).status = h.status) ∧
    (u.progress = none → (h.merge (serializeArgs u)).progress = h.progress) ∧
    (u.result = none → (h.merge (serializeArgs u)).result = h.result) ∧
    (u.error = none → (h.merge (serializeArgs u)).error = h.error) ∧
    (u.started_at = none → (h.merge (serializeArgs u)).started_at = h.started_at) ∧
    (u.completed_at = none → (h.merge (serializeArgs u)).completed_at = h.completed_at) ∧
    (h.merge (serializeArgs u)).task_id = h.task_id ∧
    (h.merge (serializeArgs u)).task_type = h.task_type ∧
    (h.merge (serializeArgs u)).payload = h.payload ∧
    (h.merge (serializeArgs u)).created_at = h.created_at ∧
    hashAt (TaskStore.update (TaskStore.update st now tid u) now2 tid u) tid
      = hashAt (TaskStore.update st now tid u) tid := by
  by_cases hne : serializeArgs u = emptyHash
  · refine ⟨?_, ?_, ?_, ?_, ?_, ?_, ?_, ?_, ?_, ?_, ?_, ?_⟩ <;>
      first
      | (rw [TaskStore.update, if_pos hne, hne, merge_emptyHash, hashAt, hl]; rfl)
      | (intro h0; rw [hne, merge_emptyHash])
      | (rw [hne, merge_emptyHash])
      | (rw [TaskStore.update, if_pos hne, TaskStore.update, if_pos hne])
  · have hbase : hgetall st now ("task:" ++ tid) = h := hgetall_of_alookup st now _ h e hl ha
    have h1 : hashAt (TaskStore.update st now tid u) tid
        = some (h.merge (serializeArgs u)) := by
      rw [hashAt_update st now tid u hne, hbase]
    have hst1 := update_hash st now tid u hne
    rw [hbase] at hst1
    have halive2 : aliveAt (some (now + DEFAULT_TTL)) now2 = true := by
      simp [aliveAt]
      omega
    have h2 : hashAt (TaskStore.update (TaskStore.update st now tid u) now2 tid u) tid
        = some (h.merge (serializeArgs u)) := by
      rw [hashAt_update _ now2 tid u hne,
        hgetall_of_alookup _ now2 _ _ _ hst1 halive2, merge_merge]
    refine ⟨h1, ?_, ?_, ?_, ?_, ?_, ?_, ?_, ?_, ?_, ?_, by rw [h1, h2]⟩ <;>
      first
      | (intro h0; simp [TaskHash.merge, serializeArgs, h0, ov])
      | simp [TaskHash.merge, serializeArgs, ov]

/-- C6 witness: a progress-only update on the freshly created record
merges only that field. -/
theorem C6_witness :
    hashAt (TaskStore.update stCreated 5 "t1" uProg) "t1"
      = some (hCreated.merge (serializeArgs uProg)) :=
  (C6_partial_update stCreated 5 6 "t1" uProg hCreated (some 3600)
    (by decide) (by decide) (by decide)).1

/-- C7 counterexample: a record driven to completed through the
canonical lifecycle is reset to pending by a later submit with the same
explicit task_id, so an operation of the core does transition a record
out of a terminal state. -/
theorem C7_counterexample :
    statusAt stDone "t1" = some "completed" ∧
    statusAt (TaskProducer.submit stDone 3 dtC .hex [("u", "alice")]
        (some "t1") "unused").1 "t1" = some "pending" := by
  decide

/-- C7 (amended): status is monotonic pending, running, terminal along
the canonical create, mark_running, mark_completed-or-mark_failed
lifecycle of one delivery, but the store does not guard terminal
states: each helper overwrites the status field unconditionally in any
state (in particular a repeated create resets a terminal record to
pending). -/
theorem C7_amended (st : RedisState) (now : Nat) (ndt : Datetime) (tid : String)
    (ty : TaskType) (p : JsonDict) (res : JsonDict) (err : String) :
    statusAt (TaskStore.create st now ndt tid ty p).1 tid = some "pending" ∧
    statusAt (markRunning st now tid ndt) tid = some "running" ∧
    statusAt (markCompleted st now tid res ndt) tid = some "completed" ∧
    statusAt (markFailed st now tid err ndt) tid = some "failed" := by
  have hh : hashAt (TaskStore.create st now ndt tid ty p).1 tid
      = some (serialize (TaskStore.create st now ndt tid ty p).2) := by
    rw [hashAt, create_hash]
    rfl
  have hne1 : serializeArgs { status := some TaskStatus.running, started_at := some ndt } ≠ emptyHash :=
    serializeArgs_status_ne _ _ rfl
  have hne2 : serializeArgs { status := some TaskStatus.completed, result := some res, progress := some "done", completed_at := some ndt } ≠ emptyHash :=
    serializeArgs_status_ne _ _ rfl
  have hne3 : serializeArgs { status := some TaskStatus.failed, error := some err, completed_at := some ndt } ≠ emptyHash :=
    serializeArgs_status_ne _ _ rfl
  refine ⟨?_, ?_, ?_, ?_⟩
  · rw [statusAt_of_hashAt _ _ _ hh]
    simp [serialize, TaskStore.create, TaskStatus.value]
  · rw [markRunning, statusAt_of_hashAt _ _ _ (hashAt_update st now tid _ hne1)]
    simp [TaskHash.merge, serializeArgs, ov, TaskStatus.value]
  · rw [markCompleted, statusAt_of_hashAt _ _ _ (hashAt_update st now tid _ hne2)]
    simp [TaskHash.merge, serializeArgs, ov, TaskStatus.value]
  · rw [markFailed, statusAt_of_hashAt _ _ _ (hashAt_update st now tid _ hne3)]
    simp [TaskHash.merge, serializeArgs, ov, TaskStatus.value]


/-- C1: evaluation of the consumer at a delivered message for the
unregistered task type image_gen: the cycle dispatches the message once
and acknowledges it exactly once (its pending entry is cleared and a
second cycle delivers nothing), but the store record of the task is
left pending with no error written, instead of being marked failed as
the specification requires. -/
theorem C1_unregistered_eval :
    (consumeOnce runW0 stUnreg ["image_gen"]).2 = [("tasks:image_gen", 1)] ∧
    statusAt (consumeOnce runW0 stUnreg ["image_gen"]).1 "t1" = some "pending" ∧
    errorAt (consumeOnce runW0 stUnreg ["image_gen"]).1 "t1" = some "" ∧
    hashAt (consumeOnce runW0 stUnreg ["image_gen"]).1 "t1" = some hUnreg ∧
    pendingAt (consumeOnce runW0 stUnreg ["image_gen"]).1 "tasks:image_gen" = [] ∧
    (consumeOnce runW0 (consumeOnce runW0 stUnreg ["image_gen"]).1 ["image_gen"]).2 = [] := by
  decide

/-- C3: processing a delivered message acknowledges it exactly once,
whatever worker resolution and the worker run did: for every worker
behavior (including raising or mutating the store arbitrarily), every
stream name (registered or not) and every payload, the single XACK in
the finally block reports one acknowledged entry and clears the pending
entry of the message. -/
theorem C3_ack_unconditional (runW : WorkerRun) (st : RedisState) (name : String)
    (id : Nat) (data : StreamMsg)
    (hcount : (pendingAt st name).count id = 1) :
    (processMessage runW st name id data).2 = 1 ∧
    (pendingAt (processMessage runW st name id data).1 name).count id = 0 := by
  simp only [processMessage]
  cases hload : loads data.payload with
  | none => exact xack_spec st name id hcount
  | some p =>
    by_cases hreg : WORKER_REGISTRY.contains (pyReplace name "tasks:" "")
    · simp only [hreg, if_true]
      exact xack_spec _ name id hcount
    · simp only [hreg, if_false]
      exact xack_spec st name id hcount

/-- C3 witness: acknowledging the concrete delivered entry 7 of the hex
stream. -/
theorem C3_witness :
    (processMessage runW0 stPend "tasks:hex" 7 { task_id := "a", payload := "\x7b\x7d" }).2 = 1 ∧
    (pendingAt (processMessage runW0 stPend "tasks:hex" 7 { task_id := "a", payload := "\x7b\x7d" }).1 "tasks:hex").count 7 = 0 :=
  C3_ack_unconditional runW0 stPend "tasks:hex" 7 _ (by decide)

/-- C4: submit with no task_id uses the freshly generated identifier,
creates the pending record (status pending, created_at stamped)
strictly before the stream append (the final hash table is exactly the
post-create one, and the post-create state already resolves the
record), a get immediately after submit returns the pending record, and
exactly one delivery message is appended to the stream named for the
task type. -/
theorem C4_submit (st : RedisState) (now : Nat) (ndt : Datetime) (ty : TaskType)
    (p : JsonDict) (freshId : String) :
    (TaskProducer.submit st now ndt ty p none freshId).2.task_id = freshId ∧
    (TaskProducer.submit st now ndt ty p none freshId).2.status = .pending ∧
    (TaskProducer.submit st now ndt ty p none freshId).2.created_at = ndt ∧
    (TaskProducer.submit st now ndt ty p none freshId).1.hashes
      = (TaskStore.create st now ndt freshId ty p).1.hashes ∧
    TaskStore.get (TaskStore.create st now ndt freshId ty p).1 now freshId
      = .ok (some (TaskProducer.submit st now ndt ty p none freshId).2) ∧
    TaskStore.get (TaskProducer.submit st now ndt ty p none freshId).1 now freshId
      = .ok (some (TaskProducer.submit st now ndt ty p none freshId).2) ∧
    (entriesAt (TaskProducer.submit st now ndt ty p none freshId).1
        ("tasks:" ++ ty.value)).map (fun e => e.2)
      = (entriesAt st ("tasks:" ++ ty.value)).map (fun e => e.2)
        ++ [{ task_id := freshId, payload := dumps p }] := by
  refine ⟨rfl, rfl, rfl, rfl, get_after_create st now ndt freshId ty p, ?_, ?_⟩
  · exact (get_hashes_only _ _ rfl now freshId).trans
      (get_after_create st now ndt freshId ty p)
  · rw [show (TaskProducer.submit st now ndt ty p none freshId).1
        = xadd (TaskStore.create st now ndt freshId ty p).1 ("tasks:" ++ ty.value) { task_id := freshId, payload := dumps p } from rfl]
    rw [entriesAt_xadd]
    rw [entriesAt_streams_eq _ st (streams_create st now ndt freshId ty p)]
    simp

/-- C8 counterexample: with one undelivered message on each of two
configured streams, a single poll cycle dispatches two delivery
messages (COUNT is a per-stream bound), so a cycle is not limited to
one message in total. -/
theorem C8_counterexample :
    (consumeOnce runW0 stTwo ["hex", "job"]).2
      = [("tasks:hex", 1), ("tasks:job", 1)] := by
  decide

/-- C8 (amended): one poll cycle claims at most one message per
configured stream (the COUNT 1 bound of the grouped read applies per
stream), hence at most as many messages in total as there are
configured task types. -/
theorem C8_amended (runW : WorkerRun) (st : RedisState) (tts : List String) :
    (∀ b ∈ (xreadgroup st (tts.map (fun t => "tasks:" ++ t)) 1).2, b.2.length ≤ 1) ∧
    (consumeOnce runW st tts).2.length ≤ tts.length := by
  constructor
  · intro b hb
    exact xreadgroup_mem_le 1 (tts.map (fun t => "tasks:" ++ t)) st b hb
  · have h1 := dispatchAll_len_le runW
      (xreadgroup st (tts.map (fun t => "tasks:" ++ t)) 1).2
      (xreadgroup st (tts.map (fun t => "tasks:" ++ t)) 1).1
      (fun b hb => xreadgroup_mem_le 1 _ st b hb)
    have h2 := xreadgroup_len_le 1 (tts.map (fun t => "tasks:" ++ t)) st
    simp only [List.length_map] at h2
    simp only [consumeOnce]
    omega

/-- C8 witness: the bound instantiated at a concrete two-stream
cycle. -/
theorem C8_witness :
    ([(1, ({ task_id := "a", payload := "\x7b\x7d" } : StreamMsg))].length ≤ 1) ∧
    (consumeOnce runW0 stTwo ["hex", "job"]).2.length ≤ 2 :=
  ⟨(C8_amended runW0 stTwo ["hex", "job"]).1
      ("tasks:hex", [(1, { task_id := "a", payload := "\x7b\x7d" })]) (by decide),
   (C8_amended runW0 stTwo ["hex", "job"]).2⟩

/-- C9: a second submit with the same explicit task_id fully overwrites
the stored hash: it becomes exactly the serialization of the second
pending record with the second deadline, leaving no field of the first
write visible, and both submits append their delivery message to the
stream named for the task type. -/
theorem C9_resubmit (st : RedisState) (n1 n2 : Nat) (d1 d2 : Datetime) (ty : TaskType)
    (p1 p2 : JsonDict) (tid f1 f2 : String) :
    alookup (TaskProducer.submit (TaskProducer.submit st n1 d1 ty p1 (some tid) f1).1
        n2 d2 ty p2 (some tid) f2).1.hashes ("task:" ++ tid)
      = some (serialize (TaskProducer.submit (TaskProducer.submit st n1 d1 ty p1 (some tid) f1).1 n2 d2 ty p2 (some tid) f2).2, some (n2 + DEFAULT_TTL)) ∧
    (TaskProducer.submit (TaskProducer.submit st n1 d1 ty p1 (some tid) f1).1
        n2 d2 ty p2 (some tid) f2).2
      = { task_id := tid, task_type := ty, status := .pending, payload := p2, created_at := d2 } ∧
    (entriesAt (TaskProducer.submit (TaskProducer.submit st n1 d1 ty p1 (some tid) f1).1
        n2 d2 ty p2 (some tid) f2).1 ("tasks:" ++ ty.value)).map (fun e => e.2)
      = (entriesAt st ("tasks:" ++ ty.value)).map (fun e => e.2)
        ++ [{ task_id := tid, payload := dumps p1 }, { task_id := tid, payload := dumps p2 }] := by
  refine ⟨create_hash _ n2 d2 tid ty p2, rfl, ?_⟩
  have h1 : entriesAt (TaskProducer.submit st n1 d1 ty p1 (some tid) f1).1
        ("tasks:" ++ ty.value)
      = entriesAt st ("tasks:" ++ ty.value)
        ++ [(((alookup st.streams ("tasks:" ++ ty.value)).getD freshStream).nextId,
             { task_id := tid, payload := dumps p1 })] := by
    rw [show (TaskProducer.submit st n1 d1 ty p1 (some tid) f1).1
        = xadd (TaskStore.create st n1 d1 tid ty p1).1 ("tasks:" ++ ty.value) { task_id := tid, payload := dumps p1 } from rfl]
    rw [entriesAt_xadd]
    rw [entriesAt_streams_eq _ st (streams_create st n1 d1 tid ty p1)]
    rw [streams_create st n1 d1 tid ty p1]
  rw [show (TaskProducer.submit (TaskProducer.submit st n1 d1 ty p1 (some tid) f1).1
        n2 d2 ty p2 (some tid) f2).1
      = xadd (TaskStore.create (TaskProducer.submit st n1 d1 ty p1 (some tid) f1).1
          n2 d2 tid ty p2).1 ("tasks:" ++ ty.value) { task_id := tid, payload := dumps p2 } from rfl]
  rw [entriesAt_xadd]
  rw [entriesAt_streams_eq _ (TaskProducer.submit st n1 d1 ty p1 (some tid) f1).1
    (streams_create _ n2 d2 tid ty p2)]
  rw [streams_create _ n2 d2 tid ty p2]
  rw [h1]
  simp

end TaskCore
